import Mathlib

/-!
Verification of the Audit Rule Evaluation & Linkage Engine.

The definitions below are a shallow embedding of the TypeScript source:
the rule evaluator `evaluateRules`, the category-linkage migration in
`db.init`, and the cascade delete `handleDeleteRule`.  JavaScript machine
values are embedded as follows: strings are `String`, numbers that the
evaluator compares are `Int` (the catalog only uses integral thresholds
and amounts), `undefined`-able fields are `Option`, and JS truthiness
tests on strings become comparisons with `""`.  `Date.prototype.getDay`
reads the host's local time zone, which is ambient state in JS; it is
threaded through the evaluator as an explicit offset-in-minutes
parameter `tz`.
-/

/-- Rule kinds.  The TypeScript `enum RuleType` has the four named members;
`OTHER` stands for any further string value that plain JavaScript could
supply outside the enum (the spec calls these "future kinds"). -/
inductive RuleType where
  | MAX_AMOUNT : RuleType
  | FORBIDDEN_CATEGORY : RuleType
  | WEEKEND_BAN : RuleType
  | REQUIRED_FIELD : RuleType
  | OTHER : String → RuleType
deriving DecidableEq, Repr

/-- `AuditRule.value : string | number` from `types.ts`. -/
inductive RuleValue where
  | str : String → RuleValue
  | num : Int → RuleValue
deriving DecidableEq, Repr

/-- `AuditRule` from `types.ts`.  `receiptType` and `linkedRequestType`
are optional in the source. -/
structure AuditRule where
  id : String
  name : String
  type : RuleType
  value : RuleValue
  enabled : Bool
  description : String
  receiptType : Option String
  linkedRequestType : Option String
deriving DecidableEq, Repr

/-- `ReceiptItem` from `types.ts`. -/
structure ReceiptItem where
  description : String
  amount : Int
deriving DecidableEq, Repr

/-- `ReceiptData` from `types.ts`.  `type` is the optional OCR
document-type label; `confidence` is unused by the evaluator. -/
structure ReceiptData where
  merchantName : String
  date : String
  totalAmount : Int
  currency : String
  category : String
  type : Option String
  items : List ReceiptItem
  confidence : Int
deriving DecidableEq, Repr

/-- `AuditResult` from `types.ts`. -/
structure AuditResult where
  passed : Bool
  triggeredRules : List String
  score : Nat
deriving DecidableEq, Repr

/-- `RequestType` from `types.ts`; `linkedRuleIds` is optional
(absent on pre-migration data). -/
structure RequestType where
  id : String
  name : String
  linkedRuleIds : Option (List String)
deriving DecidableEq, Repr

/-- The `RULE_WEIGHTS` record: a partial map on kinds; a kind outside the
table yields `undefined` in JS, embedded as `none`. -/
def RULE_WEIGHTS : RuleType → Option Nat
  | RuleType.FORBIDDEN_CATEGORY => some 100
  | RuleType.MAX_AMOUNT => some 60
  | RuleType.WEEKEND_BAN => some 30
  | RuleType.REQUIRED_FIELD => some 20
  | RuleType.OTHER _ => none

/-- `RULE_WEIGHTS[rule.type] || 10` — the table lookup with JS
`||`-defaulting (every table entry is nonzero, so `||` only fires on
`undefined`). -/
def ruleWeight (t : RuleType) : Nat := (RULE_WEIGHTS t).getD 10

/-- `sub` occurs as a contiguous substring of the second list
(JavaScript `String.prototype.includes`, character-exact). -/
def listIncludes (sub : List Char) : List Char → Bool
  | [] => sub.isEmpty
  | c :: rest => sub.isPrefixOf (c :: rest) || listIncludes sub rest

/-- `s.includes(sub)` for strings. -/
def jsIncludes (s sub : String) : Bool := listIncludes sub.toList s.toList

/-- `s.toLowerCase()`.  `Char.toLower` maps only the ASCII letters A–Z,
exactly matching `toLowerCase` on the ASCII category labels and tokens
the catalog uses (CJK characters have no case). -/
def jsToLower (s : String) : String := String.mk (s.toList.map Char.toLower)

/-- Gregorian leap-year test. -/
def isLeapYear (y : Nat) : Bool := (y % 4 == 0 && y % 100 != 0) || y % 400 == 0

/-- Number of days in month `m` of year `y`. -/
def daysInMonth (y m : Nat) : Nat :=
  if m == 2 then (if isLeapYear y then 29 else 28)
  else if m == 4 || m == 6 || m == 9 || m == 11 then 30
  else 31

/-- Days from 1970-01-01 to the civil date `y-m-d` (standard
days-from-civil computation; `/` on `Int` is Euclidean division, which
is floor division for the positive divisors used here). -/
def daysFromCivil (y m d : Nat) : Int :=
  let yi : Int := y
  let yp : Int := if m ≤ 2 then yi - 1 else yi
  let era : Int := yp / 400
  let yoe : Int := yp - era * 400
  let mp : Int := if 2 < m then (m : Int) - 3 else (m : Int) + 9
  let doy : Int := (153 * mp + 2) / 5 + (d : Int) - 1
  let doe : Int := yoe * 365 + yoe / 4 - yoe / 100 + doy
  era * 146097 + doe - 719468

/-- `new Date(s)` restricted to the date-only ISO form `YYYY-MM-DD` that
the repository uses (`ReceiptData.date` is documented as `YYYY-MM-DD`
in `types.ts`).  ECMAScript parses such a string as UTC midnight of that
calendar day, and rejects out-of-range fields; every other string is
embedded as an invalid date (`none`), matching `isNaN(date.getTime())`.
Returns the day count since the epoch. -/
def parseYMD (s : String) : Option Int :=
  match s.toList with
  | [y1, y2, y3, y4, c1, m1, m2, c2, d1, d2] =>
    if c1 == '-' && c2 == '-' && [y1, y2, y3, y4, m1, m2, d1, d2].all Char.isDigit then
      let y := 1000 * (y1.toNat - 48) + 100 * (y2.toNat - 48) + 10 * (y3.toNat - 48) + (y4.toNat - 48)
      let m := 10 * (m1.toNat - 48) + (m2.toNat - 48)
      let d := 10 * (d1.toNat - 48) + (d2.toNat - 48)
      if 1 ≤ m && m ≤ 12 && 1 ≤ d && d ≤ daysInMonth y m then some (daysFromCivil y m d)
      else none
    else none
  | _ => none

/-- `date.getDay()` for a `Date` holding UTC midnight of epoch day
`days`, observed from a host whose local zone is `tz` minutes east of
UTC: ECMAScript day-of-week of the local time, `0` = Sunday …
`6` = Saturday (the epoch, day 0, was a Thursday). -/
def jsGetDay (tz : Int) (days : Int) : Int :=
  ((days * 1440 + tz) / 1440 + 4) % 7

/-- `Number(rule.value)`: numbers pass through; the empty string is `0`;
a decimal-digit string is its value; any other string is `NaN`,
embedded as `none` (the catalog only carries integral thresholds). -/
def jsNumberOfValue : RuleValue → Option Int
  | RuleValue.num n => some n
  | RuleValue.str s => if s == "" then some 0 else (s.toNat?).map Int.ofNat

/-- `String(rule.value)`. -/
def jsStringOfValue : RuleValue → String
  | RuleValue.str s => s
  | RuleValue.num n => toString n

/-- The `switch (rule.type)` body of `evaluateRules`: does this rule's
condition match the document?  Mirrors the source case by case,
including the JS truthiness guards on `data.category` and `data.date`
and the strict equality `rule.value === 'Merchant'`. -/
def checkViolation (tz : Int) (data : ReceiptData) (rule : AuditRule) : Bool :=
  match rule.type with
  | RuleType.MAX_AMOUNT =>
    match jsNumberOfValue rule.value with
    | some t => decide (t < data.totalAmount)
    | none => false
  | RuleType.FORBIDDEN_CATEGORY =>
    data.category != "" && jsIncludes (jsToLower data.category) (jsToLower (jsStringOfValue rule.value))
  | RuleType.WEEKEND_BAN =>
    if data.date == "" then false
    else
      match parseYMD data.date with
      | some days => jsGetDay tz days == 6 || jsGetDay tz days == 0
      | none => false
  | RuleType.REQUIRED_FIELD =>
    rule.value == RuleValue.str "Merchant" &&
      (data.merchantName == "" || data.merchantName == "Unknown" || data.merchantName == "未知")
  | RuleType.OTHER _ => false

/-- Step 2a of the loop: `activeRuleIds && !activeRuleIds.includes(rule.id)`
— when the restriction is provided (even empty), the rule id must be a
member. -/
def ruleActive (activeRuleIds : Option (List String)) (rule : AuditRule) : Bool :=
  match activeRuleIds with
  | none => true
  | some ids => ids.contains rule.id

/-- Step 2b of the loop: `rule.receiptType && rule.receiptType !== 'ALL'`
guards the check (so an absent or empty or `"ALL"` receipt type always
applies), else `(data.type || '').includes(rule.receiptType)`. -/
def typeApplicable (data : ReceiptData) (rule : AuditRule) : Bool :=
  match rule.receiptType with
  | none => true
  | some rt => if rt == "" || rt == "ALL" then true else jsIncludes (data.type.getD "") rt

/-- The `for (const rule of activeRules)` loop: returns the triggered-id
list (in visit order) and the running risk total. -/
def evalLoop (tz : Int) (data : ReceiptData) (activeRuleIds : Option (List String)) :
    List AuditRule → List String × Nat
  | [] => ([], 0)
  | rule :: rest =>
    if ruleActive activeRuleIds rule && typeApplicable data rule then
      let res := evalLoop tz data activeRuleIds rest
      if checkViolation tz data rule then (rule.id :: res.1, ruleWeight rule.type + res.2)
      else res
    else evalLoop tz data activeRuleIds rest

/-- `evaluateRules` from the source: filter to enabled rules, run the
loop, clamp the score with `Math.min(Math.max(total, 0), 100)`.
`tz` is the ambient host time-zone offset in minutes east of UTC used
by `Date.prototype.getDay`. -/
def evaluateRules (tz : Int) (data : ReceiptData) (rules : List AuditRule)
    (activeRuleIds : Option (List String)) : AuditResult :=
  let activeRules := rules.filter (fun r => r.enabled)
  let res := evalLoop tz data activeRuleIds activeRules
  { passed := res.1.length == 0
    triggeredRules := res.1
    score := min (max res.2 0) 100 }

/-- The rule-to-category linkage test of the migration in `db.init`:
`!r.linkedRequestType || r.linkedRequestType === 'ALL' ||
r.linkedRequestType === rt.id` (JS truthiness links an absent or empty
tag to every category). -/
def ruleLinkedToType (rt : RequestType) (r : AuditRule) : Bool :=
  match r.linkedRequestType with
  | none => true
  | some t => t == "" || t == "ALL" || t == rt.id

/-- The `linkedRuleIds` migration block of `db.init`: it runs only when
the catalog is nonempty and its first element lacks `linkedRuleIds`
(`requestTypes[0].linkedRuleIds === undefined`); it then rebuilds every
category's `linkedRuleIds` from the legacy per-rule tags. -/
def migrateLinkage (requestTypes : List RequestType) (rules : List AuditRule) :
    List RequestType :=
  match requestTypes with
  | [] => []
  | rt0 :: _ =>
    if rt0.linkedRuleIds.isNone then
      requestTypes.map (fun rt =>
        { rt with linkedRuleIds := some ((rules.filter (ruleLinkedToType rt)).map (fun r => r.id)) })
    else requestTypes

/-- `handleDeleteRule` from the settings view: drops the rule from the
rule list and rewrites every request type with
`rt.linkedRuleIds?.filter(rid => rid !== id) || []` (an absent list
becomes the empty list). -/
def handleDeleteRule (id : String) (rules : List AuditRule) (requestTypes : List RequestType) :
    List AuditRule × List RequestType :=
  (rules.filter (fun r => r.id != id),
   requestTypes.map (fun rt =>
     { rt with
       linkedRuleIds := some (match rt.linkedRuleIds with
         | some l => l.filter (fun rid => rid != id)
         | none => []) }))

/-- Modelled from the spec: the weight table of §4.2d, with the
documented default of `10` for any kind outside the table.  Stated
separately from `RULE_WEIGHTS`/`ruleWeight` so that the score theorem
compares the code's lookup against the spec's table. -/
def specWeight : RuleType → Nat
  | RuleType.FORBIDDEN_CATEGORY => 100
  | RuleType.MAX_AMOUNT => 60
  | RuleType.WEEKEND_BAN => 30
  | RuleType.REQUIRED_FIELD => 20
  | RuleType.OTHER _ => 10

/-- A rule is triggered by the evaluation exactly when it is enabled,
active for the request type, applicable to the document type, and its
condition matches. -/
def ruleTriggered (tz : Int) (data : ReceiptData) (activeRuleIds : Option (List String))
    (r : AuditRule) : Bool :=
  r.enabled && ((ruleActive activeRuleIds r && typeApplicable data r) && checkViolation tz data r)

theorem evalLoop_eq_filter (tz : Int) (data : ReceiptData) (act : Option (List String))
    (rs : List AuditRule) :
    evalLoop tz data act rs =
      ((rs.filter (fun r => (ruleActive act r && typeApplicable data r) && checkViolation tz data r)).map (fun r => r.id),
       ((rs.filter (fun r => (ruleActive act r && typeApplicable data r) && checkViolation tz data r)).map (fun r => ruleWeight r.type)).sum) := by
  induction rs with
  | nil => rfl
  | cons rule rest ih =>
    cases ha : ruleActive act rule && typeApplicable data rule with
    | true =>
      cases hv : checkViolation tz data rule with
      | true => simp [evalLoop, ha, hv, ih]
      | false => simp [evalLoop, ha, hv, ih]
    | false => simp [evalLoop, ha, ih]

theorem evaluateRules_eq_filter (tz : Int) (data : ReceiptData) (rules : List AuditRule)
    (act : Option (List String)) :
    evaluateRules tz data rules act =
      { passed := ((rules.filter (ruleTriggered tz data act)).map (fun r => r.id)).length == 0
        triggeredRules := (rules.filter (ruleTriggered tz data act)).map (fun r => r.id)
        score := min ((rules.filter (ruleTriggered tz data act)).map (fun r => ruleWeight r.type)).sum 100 } := by
  have h : (rules.filter (fun r => r.enabled)).filter
      (fun r => (ruleActive act r && typeApplicable data r) && checkViolation tz data r)
      = rules.filter (ruleTriggered tz data act) := by
    rw [List.filter_filter]
    apply List.filter_congr
    intro a _
    unfold ruleTriggered
    cases a.enabled <;> simp
  unfold evaluateRules
  simp only [evalLoop_eq_filter, h]
  simp

theorem mem_triggered_iff (tz : Int) (data : ReceiptData) (rules : List AuditRule)
    (act : Option (List String)) (r : AuditRule)
    (hmem : r ∈ rules) (hnd : (rules.map (fun x => x.id)).Nodup) :
    r.id ∈ (evaluateRules tz data rules act).triggeredRules ↔
      ruleTriggered tz data act r = true := by
  rw [evaluateRules_eq_filter]
  simp only [List.mem_map]
  constructor
  · rintro ⟨r2, hr2, hid⟩
    have hr2mem : r2 ∈ rules := List.mem_of_mem_filter hr2
    have heq : r2 = r := List.inj_on_of_nodup_map hnd hr2mem hmem hid
    exact heq ▸ List.of_mem_filter hr2
  · intro ht
    exact ⟨r, List.mem_filter.mpr ⟨hmem, ht⟩, rfl⟩

/-- C1: for every document, rule catalog, optional `activeRuleIds`
restriction (and host zone offset), the `AuditResult` returned by
`evaluateRules` satisfies `passed == (triggeredRuleIds.length == 0)`. -/
theorem C1_passed_iff_no_triggered (tz : Int) (data : ReceiptData) (rules : List AuditRule)
    (act : Option (List String)) :
    (evaluateRules tz data rules act).passed = true ↔
      (evaluateRules tz data rules act).triggeredRules = [] := by
  unfold evaluateRules
  simp [List.length_eq_zero]

/-- C2: the score is exactly the sum of the triggered rules' kind weights
per the spec's table (`ForbiddenCategory=100`, `MaxAmount=60`,
`WeekendBan=30`, `RequiredField=20`, any other kind `10`), clamped to
`[0,100]`; never renormalized or averaged (in particular weights 60 and
100 together give `min 160 100 = 100`). -/
theorem C2_score_eq_clamped_weight_sum (tz : Int) (data : ReceiptData) (rules : List AuditRule)
    (act : Option (List String)) :
    (evaluateRules tz data rules act).score =
      min ((rules.filter (ruleTriggered tz data act)).map (fun r => specWeight r.type)).sum 100 := by
  rw [evaluateRules_eq_filter]
  have hw : ∀ r : AuditRule, ruleWeight r.type = specWeight r.type := by
    intro r
    cases r.type <;> rfl
  simp [hw]

/-- C3: calling `evaluateRules` with `activeRuleIds` omitted (`none`)
returns exactly the same `AuditResult` as calling it with the set of ids
of every enabled rule of the catalog. -/
theorem C3_omitted_eq_all_enabled_ids (tz : Int) (data : ReceiptData) (rules : List AuditRule) :
    evaluateRules tz data rules none =
      evaluateRules tz data rules (some ((rules.filter (fun r => r.enabled)).map (fun r => r.id))) := by
  rw [evaluateRules_eq_filter, evaluateRules_eq_filter]
  have h : rules.filter (ruleTriggered tz data none) =
      rules.filter (ruleTriggered tz data (some ((rules.filter (fun r => r.enabled)).map (fun r => r.id)))) := by
    apply List.filter_congr
    intro a ha
    unfold ruleTriggered ruleActive
    cases he : a.enabled with
    | false => simp
    | true =>
      have hmem : a.id ∈ (rules.filter (fun r => r.enabled)).map (fun r => r.id) :=
        List.mem_map.mpr ⟨a, List.mem_filter.mpr ⟨ha, he⟩, rfl⟩
      simp [List.elem_iff, hmem]
  rw [h]

/-- A sample document for the concrete witnesses: issued on 2024-01-06
(a Saturday), amount 2500, category "Entertainment & Dining". -/
def sampleDoc : ReceiptData :=
  { merchantName := "M", date := "2024-01-06", totalAmount := 2500, currency := "CNY",
    category := "Entertainment & Dining", type := none, items := [], confidence := 1 }

/-- A sample enabled MaxAmount rule with threshold 2000. -/
def maRule : AuditRule :=
  { id := "m1", name := "max", type := RuleType.MAX_AMOUNT, value := RuleValue.num 2000,
    enabled := true, description := "", receiptType := none, linkedRequestType := none }

/-- A sample enabled WeekendBan rule. -/
def wbRule : AuditRule :=
  { id := "w1", name := "weekend", type := RuleType.WEEKEND_BAN, value := RuleValue.num 0,
    enabled := true, description := "", receiptType := none, linkedRequestType := none }

/-- A sample enabled rule of a kind outside the four known ones. -/
def futureRule : AuditRule :=
  { id := "o1", name := "future", type := RuleType.OTHER "FUTURE_KIND", value := RuleValue.num 0,
    enabled := true, description := "", receiptType := none, linkedRequestType := none }

/-- C4: with distinct rule ids, every triggered id belongs to an enabled
rule whose id is in `activeRuleIds` whenever that set is provided (so a
provided empty set triggers nothing and a disabled rule never appears);
the triggered list follows rule-catalog order and has no duplicates. -/
theorem C4_triggered_ids_sound (tz : Int) (data : ReceiptData) (rules : List AuditRule)
    (act : Option (List String)) (hnd : (rules.map (fun r => r.id)).Nodup) :
    (∀ i ∈ (evaluateRules tz data rules act).triggeredRules,
        ∃ r, r ∈ rules ∧ r.id = i ∧ r.enabled = true ∧ ∀ ids, act = some ids → i ∈ ids)
    ∧ (act = some [] → (evaluateRules tz data rules act).triggeredRules = [])
    ∧ (evaluateRules tz data rules act).triggeredRules.Sublist (rules.map (fun r => r.id))
    ∧ (evaluateRules tz data rules act).triggeredRules.Nodup := by
  rw [evaluateRules_eq_filter]
  refine ⟨?_, ?_, ?_, ?_⟩
  · intro i hi
    simp only [List.mem_map] at hi
    obtain ⟨r, hrf, hid⟩ := hi
    have hrmem : r ∈ rules := List.mem_of_mem_filter hrf
    have hrt : ruleTriggered tz data act r = true := List.of_mem_filter hrf
    unfold ruleTriggered at hrt
    simp only [Bool.and_eq_true] at hrt
    refine ⟨r, hrmem, hid, hrt.1, ?_⟩
    intro ids hact
    subst hact
    have h2 := hrt.2.1.1
    unfold ruleActive at h2
    rw [← hid]
    exact List.elem_iff.mp h2
  · intro hact
    subst hact
    have h : rules.filter (ruleTriggered tz data (some [])) = [] := by
      apply List.filter_eq_nil_iff.mpr
      intro a _
      simp [ruleTriggered, ruleActive]
    simp [h]
  · exact List.Sublist.map (fun r => r.id) (List.filter_sublist rules)
  · exact List.Nodup.sublist (List.Sublist.map (fun r => r.id) (List.filter_sublist rules)) hnd

/-- C4 witness: at a concrete catalog with a provided empty restriction,
nothing triggers. -/
theorem C4_triggered_ids_sound_witness :
    (evaluateRules 0 sampleDoc [maRule] (some [])).triggeredRules = [] :=
  (C4_triggered_ids_sound 0 sampleDoc [maRule] (some []) (by decide)).2.1 rfl

/-- C7: an enabled, active, type-applicable MaxAmount rule triggers iff
`totalAmount` strictly exceeds its numeric threshold (equality is
compliant; threshold 0 flags any positive amount, not a zero amount). -/
theorem C7_max_amount_strict (tz : Int) (data : ReceiptData) (rules : List AuditRule)
    (act : Option (List String)) (r : AuditRule) (t : Int)
    (hmem : r ∈ rules) (hnd : (rules.map (fun x => x.id)).Nodup)
    (hen : r.enabled = true) (hact : ruleActive act r = true)
    (happ : typeApplicable data r = true)
    (hkind : r.type = RuleType.MAX_AMOUNT) (hval : r.value = RuleValue.num t) :
    r.id ∈ (evaluateRules tz data rules act).triggeredRules ↔ t < data.totalAmount := by
  rw [mem_triggered_iff tz data rules act r hmem hnd]
  unfold ruleTriggered checkViolation
  simp [hen, hact, happ, hkind, hval, jsNumberOfValue]

/-- C7 witness: threshold 2000, amount 2500 — the rule triggers. -/
theorem C7_max_amount_strict_witness :
    "m1" ∈ (evaluateRules 0 sampleDoc [maRule] none).triggeredRules :=
  (C7_max_amount_strict 0 sampleDoc [maRule] none maRule 2000 (by decide) (by decide)
    (by decide) (by decide) (by decide) (by decide) (by decide)).mpr (by decide)

/-- A rule that the dispatch of `evaluateRules` can never match: a kind
outside the four known ones, or a RequiredField rule whose token is not
the one recognized field `"Merchant"`. -/
def inertRule (r : AuditRule) : Bool :=
  match r.type with
  | RuleType.OTHER _ => true
  | RuleType.REQUIRED_FIELD => r.value != RuleValue.str "Merchant"
  | _ => false

theorem inert_no_violation (tz : Int) (data : ReceiptData) (r : AuditRule)
    (h : inertRule r = true) : checkViolation tz data r = false := by
  cases hk : r.type with
  | MAX_AMOUNT => simp [inertRule, hk] at h
  | FORBIDDEN_CATEGORY => simp [inertRule, hk] at h
  | WEEKEND_BAN => simp [inertRule, hk] at h
  | REQUIRED_FIELD =>
    simp only [inertRule, hk, bne_iff_ne, ne_eq] at h
    simp [checkViolation, hk, h]
  | OTHER s => simp [checkViolation, hk]

/-- C8: `evaluateRules` is total by construction (it is a Lean function),
and an inert rule — unknown kind, or RequiredField with an unrecognized
field token — never contributes: its id is not triggered, and removing
all inert rules from the catalog leaves the whole result unchanged
(same triggered ids and same score). -/
theorem C8_unknown_kinds_inert (tz : Int) (data : ReceiptData) (rules : List AuditRule)
    (act : Option (List String)) (r : AuditRule)
    (hmem : r ∈ rules) (hin : inertRule r = true)
    (hnd : (rules.map (fun x => x.id)).Nodup) :
    r.id ∉ (evaluateRules tz data rules act).triggeredRules
    ∧ evaluateRules tz data rules act
        = evaluateRules tz data (rules.filter (fun x => !(inertRule x))) act := by
  constructor
  · rw [mem_triggered_iff tz data rules act r hmem hnd]
    unfold ruleTriggered
    simp [inert_no_violation tz data r hin]
  · rw [evaluateRules_eq_filter, evaluateRules_eq_filter]
    have h : (rules.filter (fun x => !(inertRule x))).filter (ruleTriggered tz data act)
        = rules.filter (ruleTriggered tz data act) := by
      rw [List.filter_filter]
      apply List.filter_congr
      intro a _
      cases hi : inertRule a with
      | true =>
        have hv := inert_no_violation tz data a hi
        unfold ruleTriggered
        simp [hv]
      | false => simp
    rw [h]

/-- C8 witness: a rule of kind `OTHER "FUTURE_KIND"` is inert at a
concrete input. -/
theorem C8_unknown_kinds_inert_witness :
    "o1" ∉ (evaluateRules 0 sampleDoc [futureRule] none).triggeredRules
    ∧ evaluateRules 0 sampleDoc [futureRule] none
        = evaluateRules 0 sampleDoc ([futureRule].filter (fun x => !(inertRule x))) none :=
  C8_unknown_kinds_inert 0 sampleDoc [futureRule] none futureRule (by decide) (by decide)
    (by decide)

theorem jsGetDay_east_of_utc (tz days : Int) (h0 : 0 ≤ tz) (h1 : tz < 1440) :
    jsGetDay tz days = jsGetDay 0 days := by
  unfold jsGetDay
  have h : (days * 1440 + tz) / 1440 = (days * 1440 + 0) / 1440 := by omega
  rw [h]

/-- A sample enabled ForbiddenCategory rule with token "entertainment". -/
def fcRule : AuditRule :=
  { id := "f1", name := "fc", type := RuleType.FORBIDDEN_CATEGORY,
    value := RuleValue.str "entertainment",
    enabled := true, description := "", receiptType := none, linkedRequestType := none }

/-- A ForbiddenCategory rule whose threshold token is the empty string. -/
def emptyTokenRule : AuditRule :=
  { id := "f0", name := "fc0", type := RuleType.FORBIDDEN_CATEGORY, value := RuleValue.str "",
    enabled := true, description := "", receiptType := none, linkedRequestType := none }

/-- A document whose category label is the empty string. -/
def emptyCategoryDoc : ReceiptData :=
  { merchantName := "M", date := "", totalAmount := 0, currency := "CNY",
    category := "", type := none, items := [], confidence := 1 }

/-- C5 counterexample: "2024-01-06" (epoch day 19728) is a Saturday in
UTC, yet on a host one hour west of UTC (offset −60 minutes) the
enabled, active, applicable WeekendBan rule does not trigger: `getDay`
reads the host zone, so weekend status is not decided in a fixed zone
such as UTC as the claim states. -/
theorem C5_weekend_ban_counterexample :
    parseYMD "2024-01-06" = some 19728 ∧ jsGetDay 0 19728 = 6
    ∧ (evaluateRules (-60) sampleDoc [wbRule] none).triggeredRules = [] := by
  refine ⟨rfl, by decide, rfl⟩

/-- C5 amended: the weekend test uses the host's local zone; on any host
at or east of UTC (offset in `[0, 1440)` minutes) an enabled, active,
type-applicable WeekendBan rule triggers iff the document's date parses
as a calendar date whose UTC day-of-week is Saturday or Sunday — so
"2024-01-06" triggers there — and an empty or unparseable date never
triggers. -/
theorem C5_weekend_ban_amended (tz : Int) (data : ReceiptData) (rules : List AuditRule)
    (act : Option (List String)) (r : AuditRule)
    (hmem : r ∈ rules) (hnd : (rules.map (fun x => x.id)).Nodup)
    (hen : r.enabled = true) (hact : ruleActive act r = true)
    (happ : typeApplicable data r = true)
    (hkind : r.type = RuleType.WEEKEND_BAN)
    (htz0 : 0 ≤ tz) (htz1 : tz < 1440) :
    r.id ∈ (evaluateRules tz data rules act).triggeredRules ↔
      ∃ days, parseYMD data.date = some days ∧ (jsGetDay 0 days = 6 ∨ jsGetDay 0 days = 0) := by
  rw [mem_triggered_iff tz data rules act r hmem hnd]
  unfold ruleTriggered checkViolation
  rw [hkind]
  by_cases hd : data.date = ""
  · have hnone : parseYMD "" = none := rfl
    simp [hen, hact, happ, hd, hnone]
  · have hd2 : (data.date == "") = false := by simp [hd]
    cases hp : parseYMD data.date with
    | none => simp [hen, hact, happ, hd2, hp]
    | some days =>
      have hz := jsGetDay_east_of_utc tz days htz0 htz1
      simp [hen, hact, happ, hd2, hp, hz]

/-- C5 witness: on a host at UTC+8 the sample Saturday document triggers
the WeekendBan rule. -/
theorem C5_weekend_ban_amended_witness :
    "w1" ∈ (evaluateRules 480 sampleDoc [wbRule] none).triggeredRules :=
  (C5_weekend_ban_amended 480 sampleDoc [wbRule] none wbRule (by decide) (by decide)
    (by decide) (by decide) (by decide) (by decide) (by decide) (by decide)).mpr
    ⟨19728, rfl, Or.inl (by decide)⟩

/-- C6 counterexample: the empty category label contains the empty
threshold token as a substring (every string contains ""), yet the
enabled, active, applicable ForbiddenCategory rule does not trigger —
the truthiness guard `data.category &&` skips an empty label. -/
theorem C6_forbidden_category_counterexample :
    jsIncludes (jsToLower emptyCategoryDoc.category) (jsToLower "") = true
    ∧ (evaluateRules 0 emptyCategoryDoc [emptyTokenRule] none).triggeredRules = [] :=
  ⟨rfl, rfl⟩

/-- C6 amended: an enabled, active, type-applicable ForbiddenCategory
rule triggers iff the document's category label is non-empty and,
compared case-insensitively, contains the rule's threshold token as a
substring. -/
theorem C6_forbidden_category_amended (tz : Int) (data : ReceiptData) (rules : List AuditRule)
    (act : Option (List String)) (r : AuditRule) (tok : String)
    (hmem : r ∈ rules) (hnd : (rules.map (fun x => x.id)).Nodup)
    (hen : r.enabled = true) (hact : ruleActive act r = true)
    (happ : typeApplicable data r = true)
    (hkind : r.type = RuleType.FORBIDDEN_CATEGORY) (hval : r.value = RuleValue.str tok) :
    r.id ∈ (evaluateRules tz data rules act).triggeredRules ↔
      (data.category ≠ "" ∧ jsIncludes (jsToLower data.category) (jsToLower tok) = true) := by
  rw [mem_triggered_iff tz data rules act r hmem hnd]
  unfold ruleTriggered checkViolation
  simp [hen, hact, happ, hkind, hval, jsStringOfValue, bne_iff_ne]

/-- C6 witness: token "entertainment" matches category
"Entertainment & Dining" case-insensitively. -/
theorem C6_forbidden_category_amended_witness :
    "f1" ∈ (evaluateRules 0 sampleDoc [fcRule] none).triggeredRules :=
  (C6_forbidden_category_amended 0 sampleDoc [fcRule] none fcRule "entertainment" (by decide)
    (by decide) (by decide) (by decide) (by decide) (by decide) (by decide)).mpr
    ⟨by decide, by decide⟩

/-- A request type that already carries the new field (an empty link list). -/
def rtWithLinks : RequestType := { id := "a", name := "A", linkedRuleIds := some [] }

/-- A request type still lacking the `linkedRuleIds` field. -/
def rtNoLinks : RequestType := { id := "b", name := "B", linkedRuleIds := none }

/-- A request type with two linked rule ids. -/
def rtTwoLinks : RequestType := { id := "c", name := "C", linkedRuleIds := some ["r1", "r2"] }

/-- A rule whose legacy category tag is the empty string. -/
def emptyTagRule : AuditRule :=
  { id := "r1", name := "legacy", type := RuleType.MAX_AMOUNT, value := RuleValue.num 0,
    enabled := true, description := "", receiptType := none, linkedRequestType := some "" }

/-- C9 counterexample, two independent divergences from the claim:
(i) the migration gate tests only the first category, so a catalog whose
first category already has `linkedRuleIds` is returned unchanged and a
later category lacking the field keeps it absent — contradicting "after
it every category has an explicit list, never undefined";
(ii) a rule whose legacy tag is the empty string — present, not "ALL",
and not the category's id — is still linked to the category, because the
code's test is JS truthiness, so the derived list is `["r1"]` where the
claim demands `[]`. -/
theorem C9_migration_counterexample :
    migrateLinkage [rtWithLinks, rtNoLinks] [] = [rtWithLinks, rtNoLinks]
    ∧ rtNoLinks.linkedRuleIds = none
    ∧ migrateLinkage [rtNoLinks] [emptyTagRule]
        = [{ rtNoLinks with linkedRuleIds := some ["r1"] }]
    ∧ emptyTagRule.linkedRequestType = some "" :=
  ⟨rfl, rfl, rfl, rfl⟩

/-- C9 amended: on a catalog entirely in the pre-migration state (every
category lacking `linkedRuleIds`; the code's gate actually checks only
the first category), each category receives exactly the ids of the rules
whose legacy tag is absent, empty, `"ALL"`, or that category's id; the
migration is a per-category map that drops no categories and no rules,
and afterwards every category has an explicit (possibly empty) list,
never `undefined`. -/
theorem C9_migration_amended (rts : List RequestType) (rules : List AuditRule)
    (h : ∀ rt ∈ rts, rt.linkedRuleIds = none) :
    migrateLinkage rts rules
      = rts.map (fun rt =>
          { rt with linkedRuleIds := some ((rules.filter (ruleLinkedToType rt)).map (fun r => r.id)) })
    ∧ ∀ rt2 ∈ migrateLinkage rts rules, rt2.linkedRuleIds ≠ none := by
  have hm : migrateLinkage rts rules
      = rts.map (fun rt =>
          { rt with linkedRuleIds := some ((rules.filter (ruleLinkedToType rt)).map (fun r => r.id)) }) := by
    cases rts with
    | nil => rfl
    | cons rt0 rest =>
      have h0 : rt0.linkedRuleIds = none := h rt0 (by simp)
      unfold migrateLinkage
      simp [h0]
  refine ⟨hm, ?_⟩
  rw [hm]
  intro rt2 hmem
  simp only [List.mem_map] at hmem
  obtain ⟨rt, _, heq⟩ := hmem
  rw [← heq]
  simp

/-- C9 witness: a one-category pre-migration catalog is migrated to the
derived linkage. -/
theorem C9_migration_amended_witness :
    migrateLinkage [rtNoLinks] [emptyTagRule]
      = [rtNoLinks].map (fun rt =>
          { rt with linkedRuleIds := some (([emptyTagRule].filter (ruleLinkedToType rt)).map (fun r => r.id)) }) :=
  (C9_migration_amended [rtNoLinks] [emptyTagRule] (by decide)).1

/-- C10 counterexample: deleting rule "r1" rewrites a category that had
no `linkedRuleIds` field — hence no linked id to remove — into one with
an explicit empty list, a change beyond removing the deleted id. -/
theorem C10_delete_counterexample :
    handleDeleteRule "r1" [] [rtNoLinks] = ([], [{ rtNoLinks with linkedRuleIds := some [] }])
    ∧ rtNoLinks.linkedRuleIds = none :=
  ⟨rfl, rfl⟩

/-- C10 amended: rule deletion maps each category in place — id and name
unchanged — and `linkedRuleIds` becomes the explicit list obtained from
the previous list (or from the empty list when the field was absent) by
removing exactly the deleted id, preserving every other id in order. -/
theorem C10_delete_amended (id : String) (rules : List AuditRule) (rts : List RequestType)
    (i : Nat) (hi : i < rts.length) :
    ((handleDeleteRule id rules rts).2.length = rts.length)
    ∧ (handleDeleteRule id rules rts).2[i]?
        = some { rts.get ⟨i, hi⟩ with
                 linkedRuleIds := some (((rts.get ⟨i, hi⟩).linkedRuleIds.getD []).filter (fun x => x != id)) } := by
  unfold handleDeleteRule
  constructor
  · simp
  · simp only [List.getElem?_map]
    rw [List.getElem?_eq_getElem hi]
    simp only [Option.map_some']
    have hg : rts[i] = rts.get ⟨i, hi⟩ := rfl
    rw [hg]
    cases hL : (rts.get ⟨i, hi⟩).linkedRuleIds with
    | none => simp [hL]
    | some l => simp [hL]

/-- C10 witness: deleting "r1" from a category linked to "r1" and "r2"
keeps the category's identity and leaves exactly ["r2"]. -/
theorem C10_delete_amended_witness :
    ((handleDeleteRule "r1" [] [rtTwoLinks]).2.length = 1)
    ∧ (handleDeleteRule "r1" [] [rtTwoLinks]).2[0]?
        = some { rtTwoLinks with
                 linkedRuleIds := some ((rtTwoLinks.linkedRuleIds.getD []).filter (fun x => x != "r1")) } :=
  C10_delete_amended "r1" [] [rtTwoLinks] 0 (by decide)
